import Mathlib

/-!
Verification of the talk2write recording / transcription application.

The development shallowly embeds the application state and event handlers of
src/App.tsx together with the remote-service wrappers of
src/services/geminiService.ts.  The application is a single-threaded
event-driven program: every user action and every asynchronous completion
(recorder stop signal, transcription result, summarization result, chat
answer) is modelled as an event, and the React component state together with
the mutable refs of App.tsx is modelled as a single `Model` record.  Ghost
fields (`delivered`, `transcribeCount`, `assembled`) record the history
needed to state temporal properties; they are never read by the embedded
handlers themselves.

Remote calls are opaque: the generative-language backend's reply is an
environment-chosen `Except Unit (Option String)` (network failure, or a
response whose single text field may be absent/empty), threaded through the
faithful embeddings of transcribeAudioToUrdu / summarizeUrduContent /
chatWithTranscript.
-/

namespace Talk2Write

/-- The AppState enum of src/types.ts. -/
inductive AppState
  | IDLE
  | RECORDING
  | PAUSED
  | PROCESSING
  | ERROR
  deriving DecidableEq

/-- One audio data chunk delivered by the platform recorder.  `size` models
`event.data.size`; `payload` is an abstract identity for the bytes. -/
structure Chunk where
  size : Nat
  payload : Nat
  deriving DecidableEq

/-- An audio object (a Blob) is the ordered list of its constituent chunks. -/
abbrev Blob := List Chunk

/-- TranscriptSegment of src/types.ts. -/
structure TranscriptSegment where
  id : String
  text : String
  timestamp : Nat
  deriving DecidableEq

/-- The role field of ChatMessage in src/types.ts. -/
inductive ChatRole
  | user
  | ai
  deriving DecidableEq

/-- ChatMessage of src/types.ts. -/
structure ChatMessage where
  id : String
  role : ChatRole
  text : String
  timestamp : Nat
  deriving DecidableEq

/-- State of the platform MediaRecorder.  `recording` and `paused` are the
live states; `stopping` means stop() has been called but the asynchronous
stop event has not fired yet; `stopped` means the stop event has fired.
(The browser reports both `stopping` and `stopped` as state `inactive`;
the split records whether the completion signal is still outstanding.) -/
inductive RecorderState
  | recording
  | paused
  | stopping
  | stopped
  deriving DecidableEq

/-- The MediaRecorder held in `mediaRecorderRef`, with its `onstop` handler
slot: `hasOnStop = true` iff App.tsx installed the promise resolver
(stopAndProcess), `false` iff the slot is null (fresh recorder, or nulled
by cancelRecording / restartRecording). -/
structure MediaRecorder where
  state : RecorderState
  hasOnStop : Bool
  deriving DecidableEq

/-- The complete controller state of App.tsx: React useState values plus the
mutable refs, plus ghost history fields.

`delivered` (ghost): every chunk the current recorder delivered since the
current recording attempt began (reset exactly when `audioChunks` is reset:
on initRecording, cancelRecording, restartRecording).
`transcribeCount` (ghost): number of transcription invocations so far.
`assembled` (ghost): the audio objects assembled at stop-completion, in
order of assembly. -/
structure Model where
  appState : AppState
  segments : List TranscriptSegment
  summary : Option String
  errorMsg : Option String
  chatMessages : List ChatMessage
  chatInput : String
  isChatLoading : Bool
  recorder : Option MediaRecorder
  audioChunks : Blob
  streamOpen : Bool
  pendingInit : Bool
  pendingTranscription : Option Blob
  delivered : Blob
  transcribeCount : Nat
  assembled : List Blob
  deriving DecidableEq

/-! ## Remote service wrappers (src/services/geminiService.ts)

Each wrapper receives the environment-chosen raw outcome of the single
network round trip: `.error ()` when the call throws, `.ok r` when it
returns a response whose `text` field is `r` (absent = `none`).  The request
payload (prompt text, inline audio data) does not influence the modelled
result and is therefore not represented. -/

/-- transcribeAudioToUrdu: throws on network error; throws
"No transcription generated." when `response.text` is absent or empty
(falsy); otherwise returns the trimmed text. -/
def transcribeAudioToUrdu (resp : Except Unit (Option String)) : Except Unit String :=
  match resp with
  | .error _ => .error ()
  | .ok none => .error ()
  | .ok (some t) => if t = "" then .error () else .ok t.trim

/-- summarizeUrduContent: rethrows on network error; when `response.text`
is absent or empty it RETURNS the fixed placeholder (it does not throw);
otherwise returns the trimmed text. -/
def summarizeUrduContent (resp : Except Unit (Option String)) : Except Unit String :=
  match resp with
  | .error _ => .error ()
  | .ok none => .ok "Could not generate summary."
  | .ok (some t) => if t = "" then .ok "Could not generate summary." else .ok t.trim

/-- chatWithTranscript: rethrows on network error; an absent or empty text
field degrades to the fixed fallback answer via `response.text || ...`. -/
def chatWithTranscript (resp : Except Unit (Option String)) : Except Unit String :=
  match resp with
  | .error _ => .error ()
  | .ok none => .ok "I could not generate an answer."
  | .ok (some t) => if t = "" then .ok "I could not generate an answer." else .ok t

/-! ## Event handlers (src/App.tsx) -/

/-- initRecording, acquisition succeeded: clears errorMsg, stops any
previous stream's tracks and acquires a fresh one, installs a fresh
recorder (ondataavailable attached, no onstop), clears the chunk buffer,
starts capture and enters RECORDING. -/
def initRecordingOk (m : Model) : Model :=
  { m with
    errorMsg := none
    streamOpen := true
    recorder := some { state := .recording, hasOnStop := false }
    audioChunks := []
    delivered := []
    appState := .RECORDING }

/-- initRecording, getUserMedia rejected: the previous stream's tracks were
already stopped before the failing await, the catch block records the
message and enters ERROR.  The chunk buffer and recorder ref are untouched
(the lines clearing them are not reached). -/
def initRecordingFail (m : Model) : Model :=
  { m with
    errorMsg := some "Could not access microphone."
    streamOpen := false
    appState := .ERROR }

/-- pauseRecording: guarded on the recorder being in state recording. -/
def pauseRecording (m : Model) : Model :=
  match m.recorder with
  | none => m
  | some r =>
    if r.state = .recording then
      { m with recorder := some { r with state := .paused }, appState := .PAUSED }
    else m

/-- resumeRecording: guarded on the recorder being in state paused. -/
def resumeRecording (m : Model) : Model :=
  match m.recorder with
  | none => m
  | some r =>
    if r.state = .paused then
      { m with recorder := some { r with state := .recording }, appState := .RECORDING }
    else m

/-- MediaRecorder.stop(): a live recorder enters the stopping window (the
asynchronous stop event is now pending); stop() on an inactive recorder is
a no-op per the platform contract. -/
def recorderStopCall (r : MediaRecorder) : MediaRecorder :=
  match r.state with
  | .recording => { r with state := .stopping }
  | .paused => { r with state := .stopping }
  | .stopping => r
  | .stopped => r

/-- cancelRecording: nulls onstop (suppressing any pending finalize), calls
stop(), discards the chunk buffer and returns to IDLE.  Note: the media
stream's tracks are NOT stopped here. -/
def cancelRecording (m : Model) : Model :=
  match m.recorder with
  | none => m
  | some r =>
    { m with
      recorder := some (recorderStopCall { r with hasOnStop := false })
      audioChunks := []
      delivered := []
      appState := .IDLE }

/-- restartRecording: same discard as cancel, then returns to IDLE and
schedules initRecording via setTimeout(…, 150).  Unlike cancel it runs even
when the recorder ref is null.  The stream's tracks are NOT stopped here
(the scheduled initRecording stops them before re-acquiring). -/
def restartRecording (m : Model) : Model :=
  match m.recorder with
  | none => { m with appState := .IDLE, pendingInit := true }
  | some r =>
    { m with
      recorder := some (recorderStopCall { r with hasOnStop := false })
      audioChunks := []
      delivered := []
      appState := .IDLE
      pendingInit := true }

/-- stopAndProcess (synchronous part): installs the promise resolver as the
onstop handler, calls stop() and enters PROCESSING.  The audio object is
NOT built here; it is built when the stop signal fires (`fireStopSignal`). -/
def stopAndProcess (m : Model) : Model :=
  match m.recorder with
  | none => m
  | some r =>
    { m with
      recorder := some (recorderStopCall { r with hasOnStop := true })
      appState := .PROCESSING }

/-- The ondataavailable handler installed by initRecording: buffers a chunk
iff its size is positive.  The ghost `delivered` field records every
delivery. -/
def onDataAvailable (c : Chunk) (m : Model) : Model :=
  if 0 < c.size then
    { m with audioChunks := m.audioChunks ++ [c], delivered := m.delivered ++ [c] }
  else
    { m with delivered := m.delivered ++ [c] }

/-- The recorder's asynchronous stop event fires (only possible in the
stopping window).  If the onstop slot holds the resolver installed by
stopAndProcess, the awaited promise resolves and its continuation runs:
the audio object is assembled from the chunk buffer as it stands NOW (all
chunks have been delivered — the platform guarantees no chunk after the
stop event) and processAudio begins (clearing errorMsg and invoking the
transcription call).  If the slot was nulled (cancel/restart), nothing
runs. -/
def fireStopSignal (m : Model) : Model :=
  match m.recorder with
  | none => m
  | some r =>
    if r.state = .stopping then
      if r.hasOnStop then
        { m with
          recorder := some { r with state := .stopped }
          errorMsg := none
          pendingTranscription := some m.audioChunks
          assembled := m.assembled ++ [m.audioChunks]
          transcribeCount := m.transcribeCount + 1 }
      else
        { m with recorder := some { r with state := .stopped } }
    else m

/-- processAudio resumes with the transcription outcome: on success a fresh
segment (id and timestamp from Date.now(), modelled by `t`) is appended and
the phase returns to IDLE; on failure the error message is surfaced and the
phase returns to IDLE as well. -/
def finishTranscription (res : Except Unit (Option String)) (t : Nat) (m : Model) : Model :=
  match transcribeAudioToUrdu res with
  | .ok txt =>
    { m with
      pendingTranscription := none
      segments := m.segments ++ [{ id := toString t, text := txt, timestamp := t }]
      appState := .IDLE }
  | .error _ =>
    { m with
      pendingTranscription := none
      errorMsg := some "Transcription failed. Please try again or check file format."
      appState := .IDLE }

/-- handleFileUpload: a file strictly larger than 500 * 1024 * 1024 bytes is
rejected with the error message and nothing else happens; otherwise the
phase becomes PROCESSING and processAudio starts on the file (clearing
errorMsg and invoking transcription).  The file is a single-chunk blob. -/
def handleFileUpload (fileSize : Nat) (filePayload : Nat) (m : Model) : Model :=
  if 500 * 1024 * 1024 < fileSize then
    { m with errorMsg := some "File too large. Max 500MB allowed." }
  else
    { m with
      appState := .PROCESSING
      errorMsg := none
      pendingTranscription := some [{ size := fileSize, payload := filePayload }]
      transcribeCount := m.transcribeCount + 1 }

/-- handleSummarize, collapsed over its await: no-op when there are no
segments; otherwise the summarization outcome either replaces the summary
or surfaces the failure message, and the finally block returns the phase to
IDLE in both cases.  Prior segments are never touched. -/
def handleSummarize (res : Except Unit (Option String)) (m : Model) : Model :=
  if m.segments.length = 0 then m
  else
    match summarizeUrduContent res with
    | .ok s => { m with summary := some s, appState := .IDLE }
    | .error _ => { m with errorMsg := some "Summarization failed.", appState := .IDLE }

/-- handleDeleteSegment: keeps exactly the segments whose id differs. -/
def handleDeleteSegment (id : String) (m : Model) : Model :=
  { m with segments := m.segments.filter (fun s => s.id != id) }

/-- handleSendMessage (synchronous part): rejected when the trimmed input is
empty or an answer is still outstanding; otherwise appends the user message,
clears the input and marks the answer outstanding. -/
def handleSendMessage (t : Nat) (m : Model) : Model :=
  if m.chatInput.trim = "" ∨ m.isChatLoading then m
  else
    { m with
      chatMessages :=
        m.chatMessages ++ [{ id := toString t, role := .user, text := m.chatInput, timestamp := t }]
      chatInput := ""
      isChatLoading := true }

/-- The text of the assistant message appended by handleSendMessage's
continuation: the real answer on success, the fixed placeholder when the
chat call throws. -/
def chatAnswerText (res : Except Unit (Option String)) : String :=
  match chatWithTranscript res with
  | .ok a => a
  | .error _ => "Sorry, I couldn\x27t process that question right now."

/-- handleSendMessage resumes with the chat outcome: exactly one assistant
message is appended (answer or placeholder) and the finally block clears
the outstanding flag. -/
def finishChat (res : Except Unit (Option String)) (t : Nat) (m : Model) : Model :=
  { m with
    chatMessages :=
      m.chatMessages ++ [{ id := toString (t + 1), role := .ai, text := chatAnswerText res, timestamp := t }]
    isChatLoading := false }

/-- Typing into the chat input field. -/
def setChatInputAction (s : String) (m : Model) : Model :=
  { m with chatInput := s }

/-- The Clear All button (after the confirm dialog): segments, summary and
chat log are emptied together. -/
def clearAllAction (m : Model) : Model :=
  { m with segments := [], summary := none, chatMessages := [] }

/-- The unmount cleanup effect: stops the tracks of any still-referenced
stream, releasing the capture device. -/
def unmountCleanup (m : Model) : Model :=
  { m with streamOpen := false }

/-- hasContent: whether the action row (Summarize / Ask AI / Share) and the
Clear All button are rendered. -/
def hasContent (m : Model) : Prop :=
  m.segments ≠ [] ∨ m.summary ≠ none

instance (m : Model) : Decidable (hasContent m) := by
  unfold hasContent
  infer_instance

/-! ## The event system

Each constructor is one externally triggered occurrence: a tap on a button
the UI currently renders, a platform recorder event, a timer, or the
completion of an awaited remote call (carrying the environment-chosen
outcome and the clock value read on resumption). -/

inductive Ev
  | tapStartOk
  | tapStartFail
  | tapPause
  | tapResume
  | tapCancel
  | tapRestart
  | tapStop
  | restartTimerOk
  | restartTimerFail
  | dataAvailable (c : Chunk)
  | stopSignal
  | transcriptionDone (res : Except Unit (Option String)) (t : Nat)
  | fileSelect (size : Nat) (payload : Nat)
  | tapSummarize (res : Except Unit (Option String))
  | deleteSeg (id : String)
  | tapClearAll
  | typeChat (s : String)
  | chatSubmit (t : Nat)
  | chatDone (res : Except Unit (Option String)) (t : Nat)

/-- One step of the application.  The enabling conditions mirror which
buttons App.tsx renders in each phase (a hidden button cannot be tapped)
and which asynchronous completions can be outstanding; a disabled event
leaves the state unchanged. -/
def stepEv (m : Model) (e : Ev) : Model :=
  match e with
  | .tapStartOk =>
    if m.appState = .IDLE ∨ m.appState = .ERROR then initRecordingOk m else m
  | .tapStartFail =>
    if m.appState = .IDLE ∨ m.appState = .ERROR then initRecordingFail m else m
  | .tapPause => if m.appState = .RECORDING then pauseRecording m else m
  | .tapResume => if m.appState = .PAUSED then resumeRecording m else m
  | .tapCancel =>
    if m.appState = .RECORDING ∨ m.appState = .PAUSED then cancelRecording m else m
  | .tapRestart =>
    if m.appState = .RECORDING ∨ m.appState = .PAUSED then restartRecording m else m
  | .tapStop =>
    if m.appState = .RECORDING ∨ m.appState = .PAUSED then stopAndProcess m else m
  | .restartTimerOk =>
    if m.pendingInit then initRecordingOk { m with pendingInit := false } else m
  | .restartTimerFail =>
    if m.pendingInit then initRecordingFail { m with pendingInit := false } else m
  | .dataAvailable c =>
    match m.recorder with
    | none => m
    | some r => if r.state ≠ .stopped then onDataAvailable c m else m
  | .stopSignal => fireStopSignal m
  | .transcriptionDone res t =>
    if m.pendingTranscription.isSome then finishTranscription res t m else m
  | .fileSelect sz p =>
    if m.appState = .IDLE ∨ m.appState = .ERROR then handleFileUpload sz p m else m
  | .tapSummarize res =>
    if (m.appState = .IDLE ∨ m.appState = .ERROR) ∧ hasContent m then
      handleSummarize res m
    else m
  | .deleteSeg id => handleDeleteSegment id m
  | .tapClearAll => if hasContent m then clearAllAction m else m
  | .typeChat s => setChatInputAction s m
  | .chatSubmit t => handleSendMessage t m
  | .chatDone res t => if m.isChatLoading then finishChat res t m else m

/-- The state on first render. -/
def initModel : Model where
  appState := .IDLE
  segments := []
  summary := none
  errorMsg := none
  chatMessages := []
  chatInput := ""
  isChatLoading := false
  recorder := none
  audioChunks := []
  streamOpen := false
  pendingInit := false
  pendingTranscription := none
  delivered := []
  transcribeCount := 0
  assembled := []

/-- Running an event sequence from the initial state. -/
def run (evs : List Ev) : Model :=
  evs.foldl stepEv initModel

/-- A state the application can actually be in. -/
def Reachable (m : Model) : Prop :=
  ∃ evs, run evs = m

/-- The test ondataavailable applies before buffering a chunk. -/
def chunkPos (c : Chunk) : Bool :=
  decide (0 < c.size)

/-- The controller invariant maintained by every step:
1. the chunk buffer is exactly the positive-size sublist of what the current
   recording attempt delivered, in delivery order;
2. in phase RECORDING the recorder exists and is recording;
3. in phase PAUSED the recorder exists and is paused;
4. every assembled audio object consists of positive-size chunks only. -/
def Inv (m : Model) : Prop :=
  m.audioChunks = m.delivered.filter chunkPos
  ∧ (m.appState = .RECORDING → ∃ r, m.recorder = some r ∧ r.state = .recording)
  ∧ (m.appState = .PAUSED → ∃ r, m.recorder = some r ∧ r.state = .paused)
  ∧ (∀ b ∈ m.assembled, ∀ c ∈ b, 0 < c.size)

theorem inv_initRecordingOk (m : Model) (h : Inv m) : Inv (initRecordingOk m) := by
  obtain ⟨h1, h2, h3, h4⟩ := h
  exact ⟨by simp [initRecordingOk], by simp [initRecordingOk], by simp [initRecordingOk],
    by simpa [initRecordingOk] using h4⟩

theorem inv_initRecordingFail (m : Model) (h : Inv m) : Inv (initRecordingFail m) := by
  obtain ⟨h1, h2, h3, h4⟩ := h
  exact ⟨by simpa [initRecordingFail] using h1, by simp [initRecordingFail],
    by simp [initRecordingFail], by simpa [initRecordingFail] using h4⟩

theorem inv_pauseRecording (m : Model) (h : Inv m) : Inv (pauseRecording m) := by
  obtain ⟨h1, h2, h3, h4⟩ := h
  unfold pauseRecording
  cases hr : m.recorder with
  | none => exact ⟨h1, h2, h3, h4⟩
  | some r =>
    by_cases hs : r.state = .recording
    · simp only [hs, if_pos rfl]
      exact ⟨h1, by simp, by simp, h4⟩
    · simp only [if_neg hs]
      exact ⟨h1, h2, h3, h4⟩

theorem inv_resumeRecording (m : Model) (h : Inv m) : Inv (resumeRecording m) := by
  obtain ⟨h1, h2, h3, h4⟩ := h
  unfold resumeRecording
  cases hr : m.recorder with
  | none => exact ⟨h1, h2, h3, h4⟩
  | some r =>
    by_cases hs : r.state = .paused
    · simp only [hs, if_pos rfl]
      exact ⟨h1, by simp, by simp, h4⟩
    · simp only [if_neg hs]
      exact ⟨h1, h2, h3, h4⟩

theorem inv_cancelRecording (m : Model) (h : Inv m) : Inv (cancelRecording m) := by
  obtain ⟨h1, h2, h3, h4⟩ := h
  unfold cancelRecording
  cases hr : m.recorder with
  | none => exact ⟨h1, h2, h3, h4⟩
  | some r => exact ⟨by simp, by simp, by simp, by simpa using h4⟩

theorem inv_restartRecording (m : Model) (h : Inv m) : Inv (restartRecording m) := by
  obtain ⟨h1, h2, h3, h4⟩ := h
  unfold restartRecording
  cases hr : m.recorder with
  | none => exact ⟨h1, by simp, by simp, by simpa using h4⟩
  | some r => exact ⟨by simp, by simp, by simp, by simpa using h4⟩

theorem inv_stopAndProcess (m : Model) (h : Inv m) : Inv (stopAndProcess m) := by
  obtain ⟨h1, h2, h3, h4⟩ := h
  unfold stopAndProcess
  cases hr : m.recorder with
  | none => exact ⟨h1, h2, h3, h4⟩
  | some r => exact ⟨h1, by simp, by simp, by simpa using h4⟩

theorem inv_onDataAvailable (c : Chunk) (m : Model) (h : Inv m) :
    Inv (onDataAvailable c m) := by
  obtain ⟨h1, h2, h3, h4⟩ := h
  unfold onDataAvailable
  by_cases hc : 0 < c.size
  · simp only [if_pos hc]
    refine ⟨?_, by simpa using h2, by simpa using h3, by simpa using h4⟩
    simp [List.filter_append, chunkPos, hc, h1]
  · simp only [if_neg hc]
    refine ⟨?_, by simpa using h2, by simpa using h3, by simpa using h4⟩
    simp [List.filter_append, chunkPos, hc, h1]

theorem inv_fireStopSignal (m : Model) (h : Inv m) : Inv (fireStopSignal m) := by
  obtain ⟨h1, h2, h3, h4⟩ := h
  unfold fireStopSignal
  cases hr : m.recorder with
  | none => exact ⟨h1, h2, h3, h4⟩
  | some r =>
    by_cases hs : r.state = .stopping
    · have hrec : ¬m.appState = .RECORDING := by
        intro hx
        obtain ⟨r', hr', hst⟩ := h2 hx
        rw [hr] at hr'
        cases hr'
        rw [hs] at hst
        cases hst
      have hpau : ¬m.appState = .PAUSED := by
        intro hx
        obtain ⟨r', hr', hst⟩ := h3 hx
        rw [hr] at hr'
        cases hr'
        rw [hs] at hst
        cases hst
      by_cases ho : r.hasOnStop
      · simp only [hs, ho, if_pos rfl, if_pos, reduceIte]
        refine ⟨by simpa using h1, by simpa using hrec, by simpa using hpau, ?_⟩
        intro b hb
        simp only [List.mem_append, List.mem_singleton] at hb
        rcases hb with hb | hb
        · exact h4 b hb
        · subst hb
          intro cc hcc
          rw [h1] at hcc
          have := List.of_mem_filter hcc
          simpa [chunkPos] using this
      · simp only [hs, ho, if_pos rfl, reduceIte]
        exact ⟨by simpa using h1, by simpa using hrec, by simpa using hpau,
          by simpa using h4⟩
    · simp only [if_neg hs]
      exact ⟨h1, h2, h3, h4⟩

theorem inv_finishTranscription (res : Except Unit (Option String)) (t : Nat) (m : Model)
    (h : Inv m) : Inv (finishTranscription res t m) := by
  obtain ⟨h1, h2, h3, h4⟩ := h
  unfold finishTranscription
  cases transcribeAudioToUrdu res with
  | ok txt => exact ⟨by simpa using h1, by simp, by simp, by simpa using h4⟩
  | error e => exact ⟨by simpa using h1, by simp, by simp, by simpa using h4⟩

theorem inv_handleFileUpload (sz p : Nat) (m : Model) (h : Inv m) :
    Inv (handleFileUpload sz p m) := by
  obtain ⟨h1, h2, h3, h4⟩ := h
  unfold handleFileUpload
  by_cases hsz : 500 * 1024 * 1024 < sz
  · simp only [if_pos hsz]
    exact ⟨by simpa using h1, by simpa using h2, by simpa using h3, by simpa using h4⟩
  · simp only [if_neg hsz]
    exact ⟨by simpa using h1, by simp, by simp, by simpa using h4⟩

theorem inv_handleSummarize (res : Except Unit (Option String)) (m : Model) (h : Inv m) :
    Inv (handleSummarize res m) := by
  obtain ⟨h1, h2, h3, h4⟩ := h
  unfold handleSummarize
  by_cases hseg : m.segments.length = 0
  · simp only [if_pos hseg]
    exact ⟨h1, h2, h3, h4⟩
  · simp only [if_neg hseg]
    cases summarizeUrduContent res with
    | ok s => exact ⟨by simpa using h1, by simp, by simp, by simpa using h4⟩
    | error e => exact ⟨by simpa using h1, by simp, by simp, by simpa using h4⟩

theorem inv_handleDeleteSegment (id : String) (m : Model) (h : Inv m) :
    Inv (handleDeleteSegment id m) := by
  obtain ⟨h1, h2, h3, h4⟩ := h
  exact ⟨by simpa [handleDeleteSegment] using h1,
    by simpa [handleDeleteSegment] using h2,
    by simpa [handleDeleteSegment] using h3,
    by simpa [handleDeleteSegment] using h4⟩

theorem inv_handleSendMessage (t : Nat) (m : Model) (h : Inv m) :
    Inv (handleSendMessage t m) := by
  obtain ⟨h1, h2, h3, h4⟩ := h
  unfold handleSendMessage
  by_cases hg : m.chatInput.trim = "" ∨ m.isChatLoading
  · simp only [if_pos hg]
    exact ⟨h1, h2, h3, h4⟩
  · simp only [if_neg hg]
    exact ⟨by simpa using h1, by simpa using h2, by simpa using h3, by simpa using h4⟩

theorem inv_finishChat (res : Except Unit (Option String)) (t : Nat) (m : Model)
    (h : Inv m) : Inv (finishChat res t m) := by
  obtain ⟨h1, h2, h3, h4⟩ := h
  exact ⟨by simpa [finishChat] using h1, by simpa [finishChat] using h2,
    by simpa [finishChat] using h3, by simpa [finishChat] using h4⟩

theorem inv_setChatInputAction (s : String) (m : Model) (h : Inv m) :
    Inv (setChatInputAction s m) := by
  obtain ⟨h1, h2, h3, h4⟩ := h
  exact ⟨by simpa [setChatInputAction] using h1, by simpa [setChatInputAction] using h2,
    by simpa [setChatInputAction] using h3, by simpa [setChatInputAction] using h4⟩

theorem inv_clearAllAction (m : Model) (h : Inv m) : Inv (clearAllAction m) := by
  obtain ⟨h1, h2, h3, h4⟩ := h
  exact ⟨by simpa [clearAllAction] using h1, by simpa [clearAllAction] using h2,
    by simpa [clearAllAction] using h3, by simpa [clearAllAction] using h4⟩

/-- Every event preserves the controller invariant. -/
theorem inv_stepEv (m : Model) (e : Ev) (h : Inv m) : Inv (stepEv m e) := by
  cases e with
  | tapStartOk =>
    simp only [stepEv]
    split
    · exact inv_initRecordingOk m h
    · exact h
  | tapStartFail =>
    simp only [stepEv]
    split
    · exact inv_initRecordingFail m h
    · exact h
  | tapPause =>
    simp only [stepEv]
    split
    · exact inv_pauseRecording m h
    · exact h
  | tapResume =>
    simp only [stepEv]
    split
    · exact inv_resumeRecording m h
    · exact h
  | tapCancel =>
    simp only [stepEv]
    split
    · exact inv_cancelRecording m h
    · exact h
  | tapRestart =>
    simp only [stepEv]
    split
    · exact inv_restartRecording m h
    · exact h
  | tapStop =>
    simp only [stepEv]
    split
    · exact inv_stopAndProcess m h
    · exact h
  | restartTimerOk =>
    simp only [stepEv]
    split
    · refine inv_initRecordingOk _ ?_
      obtain ⟨h1, h2, h3, h4⟩ := h
      exact ⟨h1, by simpa using h2, by simpa using h3, by simpa using h4⟩
    · exact h
  | restartTimerFail =>
    simp only [stepEv]
    split
    · refine inv_initRecordingFail _ ?_
      obtain ⟨h1, h2, h3, h4⟩ := h
      exact ⟨h1, by simpa using h2, by simpa using h3, by simpa using h4⟩
    · exact h
  | dataAvailable c =>
    simp only [stepEv]
    cases m.recorder with
    | none => exact h
    | some r =>
      by_cases hs : r.state ≠ RecorderState.stopped
      · simpa [hs] using inv_onDataAvailable c m h
      · simpa [hs] using h
  | stopSignal => exact inv_fireStopSignal m h
  | transcriptionDone res t =>
    simp only [stepEv]
    split
    · exact inv_finishTranscription res t m h
    · exact h
  | fileSelect sz p =>
    simp only [stepEv]
    split
    · exact inv_handleFileUpload sz p m h
    · exact h
  | tapSummarize res =>
    simp only [stepEv]
    split
    · exact inv_handleSummarize res m h
    · exact h
  | deleteSeg id => exact inv_handleDeleteSegment id m h
  | tapClearAll =>
    simp only [stepEv]
    split
    · exact inv_clearAllAction m h
    · exact h
  | typeChat s => exact inv_setChatInputAction s m h
  | chatSubmit t => exact inv_handleSendMessage t m h
  | chatDone res t =>
    simp only [stepEv]
    split
    · exact inv_finishChat res t m h
    · exact h

theorem inv_initModel : Inv initModel := by
  refine ⟨rfl, ?_, ?_, ?_⟩ <;> simp [initModel]

theorem inv_foldl (evs : List Ev) (m : Model) (h : Inv m) :
    Inv (evs.foldl stepEv m) := by
  induction evs generalizing m with
  | nil => exact h
  | cons e evs ih => exact ih _ (inv_stepEv m e h)

/-- The controller invariant holds in every reachable state. -/
theorem reachable_inv (m : Model) (h : Reachable m) : Inv m := by
  obtain ⟨evs, hevs⟩ := h
  rw [← hevs]
  exact inv_foldl evs initModel inv_initModel

/-- Any state produced by running an event list is reachable. -/
theorem reachable_run (evs : List Ev) : Reachable (run evs) :=
  ⟨evs, rfl⟩

/-- Helper: each handler other than the stop-completion handler leaves the
ghost list of assembled audio objects unchanged. -/
theorem assembled_initRecordingOk (m : Model) :
    (initRecordingOk m).assembled = m.assembled := rfl

theorem assembled_initRecordingFail (m : Model) :
    (initRecordingFail m).assembled = m.assembled := rfl

theorem assembled_pauseRecording (m : Model) :
    (pauseRecording m).assembled = m.assembled := by
  unfold pauseRecording
  repeat' split
  all_goals rfl

theorem assembled_resumeRecording (m : Model) :
    (resumeRecording m).assembled = m.assembled := by
  unfold resumeRecording
  repeat' split
  all_goals rfl

theorem assembled_cancelRecording (m : Model) :
    (cancelRecording m).assembled = m.assembled := by
  unfold cancelRecording
  repeat' split
  all_goals rfl

theorem assembled_restartRecording (m : Model) :
    (restartRecording m).assembled = m.assembled := by
  unfold restartRecording
  repeat' split
  all_goals rfl

theorem assembled_stopAndProcess (m : Model) :
    (stopAndProcess m).assembled = m.assembled := by
  unfold stopAndProcess
  repeat' split
  all_goals rfl

theorem assembled_onDataAvailable (c : Chunk) (m : Model) :
    (onDataAvailable c m).assembled = m.assembled := by
  unfold onDataAvailable
  repeat' split
  all_goals rfl

theorem assembled_finishTranscription (res : Except Unit (Option String)) (t : Nat)
    (m : Model) : (finishTranscription res t m).assembled = m.assembled := by
  unfold finishTranscription
  repeat' split
  all_goals rfl

theorem assembled_handleFileUpload (sz p : Nat) (m : Model) :
    (handleFileUpload sz p m).assembled = m.assembled := by
  unfold handleFileUpload
  repeat' split
  all_goals rfl

theorem assembled_handleSummarize (res : Except Unit (Option String)) (m : Model) :
    (handleSummarize res m).assembled = m.assembled := by
  unfold handleSummarize
  repeat' split
  all_goals rfl

theorem assembled_handleSendMessage (t : Nat) (m : Model) :
    (handleSendMessage t m).assembled = m.assembled := by
  unfold handleSendMessage
  repeat' split
  all_goals rfl

/-- No event other than the stop-completion signal assembles an audio
object. -/
theorem stepEv_assembled (m : Model) (e : Ev) (h : e ≠ Ev.stopSignal) :
    (stepEv m e).assembled = m.assembled := by
  cases e
  case stopSignal => exact absurd rfl h
  all_goals
    simp only [stepEv]
  all_goals
    repeat' split
  all_goals
    first
    | rfl
    | exact assembled_initRecordingOk _
    | exact assembled_initRecordingFail _
    | exact assembled_pauseRecording _
    | exact assembled_resumeRecording _
    | exact assembled_cancelRecording _
    | exact assembled_restartRecording _
    | exact assembled_stopAndProcess _
    | exact assembled_onDataAvailable _ _
    | exact assembled_finishTranscription _ _ _
    | exact assembled_handleFileUpload _ _ _
    | exact assembled_handleSummarize _ _
    | exact assembled_handleSendMessage _ _

/-! ## Claim C1 -/

/-- Claim C1, counterexample to the claim as stated: a recording during
which the capture device delivers a single chunk of size zero.  The chunk
is delivered between Start and the stop-completion signal, yet the
assembled audio object is empty — the delivered chunk is omitted, so the
assembled object does not contain "exactly the chunks delivered … with no
chunk omitted". -/
theorem c1_counterexample :
    Reachable (run [Ev.tapStartOk, Ev.dataAvailable ⟨0, 7⟩, Ev.tapStop, Ev.stopSignal]) ∧
    (run [Ev.tapStartOk, Ev.dataAvailable ⟨0, 7⟩, Ev.tapStop, Ev.stopSignal]).delivered
      = [⟨0, 7⟩] ∧
    (run [Ev.tapStartOk, Ev.dataAvailable ⟨0, 7⟩, Ev.tapStop, Ev.stopSignal]).assembled
      = [[]] :=
  ⟨reachable_run _, by decide, by decide⟩

/-- Claim C1 (amended): the audio object is assembled only at the
stop-completion signal, never before it; and for every sequence of
Pause/Resume actions during one recording, the assembled object contains
exactly the chunks OF POSITIVE SIZE delivered between Start and the
stop-completion signal, in delivery order, with none of them omitted or
duplicated (zero-size chunks are discarded on delivery). -/
theorem c1_theorem :
    (∀ (m : Model) (e : Ev), e ≠ Ev.stopSignal → (stepEv m e).assembled = m.assembled) ∧
    (∀ m : Model, Reachable m → ∀ r : MediaRecorder, m.recorder = some r →
      r.state = .stopping → r.hasOnStop = true →
      (stepEv m Ev.stopSignal).assembled
        = m.assembled ++ [m.delivered.filter chunkPos] ∧
      (stepEv m Ev.stopSignal).pendingTranscription
        = some (m.delivered.filter chunkPos)) := by
  constructor
  · exact stepEv_assembled
  · intro m hreach r hr hs ho
    obtain ⟨h1, h2, h3, h4⟩ := reachable_inv m hreach
    have : stepEv m Ev.stopSignal = fireStopSignal m := rfl
    rw [this]
    unfold fireStopSignal
    rw [hr]
    simp only [hs, ho, if_pos rfl, reduceIte]
    exact ⟨by simp [h1], by simp [h1]⟩

/-- Claim C1, witness: a concrete recording that delivers one chunk of size
2 and stops; the theorem applies and yields the exact assembled object. -/
theorem c1_witness :
    (stepEv initModel Ev.tapStartOk).assembled = initModel.assembled ∧
    (stepEv (run [Ev.tapStartOk, Ev.dataAvailable ⟨2, 0⟩, Ev.tapStop]) Ev.stopSignal).assembled
      = (run [Ev.tapStartOk, Ev.dataAvailable ⟨2, 0⟩, Ev.tapStop]).assembled
        ++ [(run [Ev.tapStartOk, Ev.dataAvailable ⟨2, 0⟩, Ev.tapStop]).delivered.filter chunkPos] ∧
    (stepEv (run [Ev.tapStartOk, Ev.dataAvailable ⟨2, 0⟩, Ev.tapStop]) Ev.stopSignal).pendingTranscription
      = some ((run [Ev.tapStartOk, Ev.dataAvailable ⟨2, 0⟩, Ev.tapStop]).delivered.filter chunkPos) :=
  ⟨c1_theorem.1 initModel Ev.tapStartOk (fun h => nomatch h),
   (c1_theorem.2 (run [Ev.tapStartOk, Ev.dataAvailable ⟨2, 0⟩, Ev.tapStop])
     ⟨[Ev.tapStartOk, Ev.dataAvailable ⟨2, 0⟩, Ev.tapStop], rfl⟩
     { state := .stopping, hasOnStop := true } (by decide) (by decide) (by decide)).1,
   (c1_theorem.2 (run [Ev.tapStartOk, Ev.dataAvailable ⟨2, 0⟩, Ev.tapStop])
     ⟨[Ev.tapStartOk, Ev.dataAvailable ⟨2, 0⟩, Ev.tapStop], rfl⟩
     { state := .stopping, hasOnStop := true } (by decide) (by decide) (by decide)).2⟩

/-! ## Claim C2 -/

/-- Claim C2, counterexample: after a successful Stop-finalize the phase is
Idle yet the chunk buffer still holds the finalized recording's chunk —
stopAndProcess never clears audioChunksRef, so the buffer is NOT cleared on
successful Stop-finalize and CAN be non-empty while the phase is Idle. -/
theorem c2_counterexample :
    Reachable (run [Ev.tapStartOk, Ev.dataAvailable ⟨1, 0⟩, Ev.tapStop, Ev.stopSignal,
      Ev.transcriptionDone (.ok (some "a")) 5]) ∧
    (run [Ev.tapStartOk, Ev.dataAvailable ⟨1, 0⟩, Ev.tapStop, Ev.stopSignal,
      Ev.transcriptionDone (.ok (some "a")) 5]).appState = AppState.IDLE ∧
    (run [Ev.tapStartOk, Ev.dataAvailable ⟨1, 0⟩, Ev.tapStop, Ev.stopSignal,
      Ev.transcriptionDone (.ok (some "a")) 5]).audioChunks = [⟨1, 0⟩] :=
  ⟨reachable_run _, by decide, by decide⟩

/-- Claim C2 (amended): the pending chunk buffer is cleared on Cancel and on
Restart (both invoked from Recording or Paused), and at the start of every
recording (Start and the delayed restart both clear it before capture); it
is NOT cleared on successful Stop-finalize, so the buffer may remain
non-empty while the phase is Idle until the next Start discards it. -/
theorem c2_theorem :
    ∀ m : Model, Reachable m →
      ((m.appState = .RECORDING ∨ m.appState = .PAUSED) →
        (stepEv m Ev.tapCancel).audioChunks = [] ∧
        (stepEv m Ev.tapRestart).audioChunks = []) ∧
      ((m.appState = .IDLE ∨ m.appState = .ERROR) →
        (stepEv m Ev.tapStartOk).audioChunks = []) ∧
      (m.pendingInit = true → (stepEv m Ev.restartTimerOk).audioChunks = []) := by
  intro m hreach
  obtain ⟨h1, h2, h3, h4⟩ := reachable_inv m hreach
  refine ⟨?_, ?_, ?_⟩
  · intro hph
    have hrec : ∃ r, m.recorder = some r := by
      rcases hph with hph | hph
      · obtain ⟨r, hr, _⟩ := h2 hph
        exact ⟨r, hr⟩
      · obtain ⟨r, hr, _⟩ := h3 hph
        exact ⟨r, hr⟩
    obtain ⟨r, hr⟩ := hrec
    constructor
    · simp only [stepEv, if_pos hph]
      unfold cancelRecording
      rw [hr]
    · simp only [stepEv, if_pos hph]
      unfold restartRecording
      rw [hr]
  · intro hph
    simp only [stepEv, if_pos hph]
    rfl
  · intro hpi
    simp only [stepEv, if_pos hpi]
    rfl

/-- Claim C2, witness: from a live recording holding one buffered chunk,
Cancel and Restart leave an empty buffer. -/
theorem c2_witness :
    (stepEv (run [Ev.tapStartOk, Ev.dataAvailable ⟨1, 0⟩]) Ev.tapCancel).audioChunks = [] ∧
    (stepEv (run [Ev.tapStartOk, Ev.dataAvailable ⟨1, 0⟩]) Ev.tapRestart).audioChunks = [] :=
  (c2_theorem (run [Ev.tapStartOk, Ev.dataAvailable ⟨1, 0⟩])
    ⟨[Ev.tapStartOk, Ev.dataAvailable ⟨1, 0⟩], rfl⟩).1 (Or.inl (by decide))

/-! ## Claim C3 -/

/-- Claim C3, counterexample: Start then Cancel.  The phase is Idle, no
acquisition is in flight (no restart timer pending, no processing), yet the
capture stream is still open — cancelRecording stops the MediaRecorder but
never stops the stream's tracks, so the handle is neither released on
Cancel nor closed whenever the phase is Idle. -/
theorem c3_counterexample :
    Reachable (run [Ev.tapStartOk, Ev.tapCancel]) ∧
    (run [Ev.tapStartOk, Ev.tapCancel]).appState = AppState.IDLE ∧
    (run [Ev.tapStartOk, Ev.tapCancel]).pendingInit = false ∧
    (run [Ev.tapStartOk, Ev.tapCancel]).pendingTranscription = none ∧
    (run [Ev.tapStartOk, Ev.tapCancel]).streamOpen = true :=
  ⟨reachable_run _, by decide, by decide, by decide, by decide⟩

/-- Claim C3 (amended): Cancel, Restart, Stop-and-finalize and the
stop-completion handler all leave the capture stream exactly as open as it
was (none of them releases the device handle); the handle is released only
at teardown/unmount and at the start of the next acquisition (initRecording
stops any previous stream before requesting a new one, and leaves no open
handle when acquisition fails).  Consequently the handle may remain open
while the phase is Idle or Processing. -/
theorem c3_theorem :
    ∀ m : Model,
      (cancelRecording m).streamOpen = m.streamOpen ∧
      (restartRecording m).streamOpen = m.streamOpen ∧
      (stopAndProcess m).streamOpen = m.streamOpen ∧
      (fireStopSignal m).streamOpen = m.streamOpen ∧
      (unmountCleanup m).streamOpen = false ∧
      (initRecordingOk m).streamOpen = true ∧
      (initRecordingFail m).streamOpen = false := by
  intro m
  refine ⟨?_, ?_, ?_, ?_, rfl, rfl, rfl⟩
  · unfold cancelRecording
    repeat' split
    all_goals rfl
  · unfold restartRecording
    repeat' split
    all_goals rfl
  · unfold stopAndProcess
    repeat' split
    all_goals rfl
  · unfold fireStopSignal
    repeat' split
    all_goals rfl

/-! ## Claim C4 -/

/-- Claim C4, counterexample: an empty/absent response text does NOT fail —
summarizeUrduContent returns the placeholder text as a SUCCESS, and
handleSummarize stores it, replacing the prior summary.  Run: one segment
is transcribed, a first summarization stores the summary "old", then a
summarization whose response text is absent overwrites it with the
placeholder instead of failing and retaining "old". -/
theorem c4_counterexample :
    summarizeUrduContent (Except.ok none) = Except.ok "Could not generate summary." ∧
    (run [Ev.fileSelect 1 0, Ev.transcriptionDone (Except.ok (some "a")) 1,
      Ev.tapSummarize (Except.ok (some "old"))]).summary = some "old".trim ∧
    (run [Ev.fileSelect 1 0, Ev.transcriptionDone (Except.ok (some "a")) 1,
      Ev.tapSummarize (Except.ok (some "old")),
      Ev.tapSummarize (Except.ok none)]).summary
      = some "Could not generate summary." :=
  ⟨rfl, rfl, rfl⟩

/-- Claim C4 (amended): summarize fails with SummarizationFailed only when
the remote call errors; an empty or absent response text SUCCEEDS with the
fixed placeholder text, which the caller stores as the summary.  On a
remote-call error the caller surfaces the failure message, returns to Idle,
and retains all prior segments and the prior summary unchanged; and no
summarization path ever modifies the segments. -/
theorem c4_theorem :
    summarizeUrduContent (Except.error ()) = Except.error () ∧
    summarizeUrduContent (Except.ok none) = Except.ok "Could not generate summary." ∧
    (∀ m : Model, m.segments ≠ [] →
      (handleSummarize (Except.error ()) m).segments = m.segments ∧
      (handleSummarize (Except.error ()) m).summary = m.summary ∧
      (handleSummarize (Except.error ()) m).errorMsg = some "Summarization failed." ∧
      (handleSummarize (Except.error ()) m).appState = AppState.IDLE) ∧
    (∀ (m : Model) (res : Except Unit (Option String)),
      (handleSummarize res m).segments = m.segments) := by
  refine ⟨rfl, rfl, ?_, ?_⟩
  · intro m hm
    have hl : ¬m.segments.length = 0 := by simpa using hm
    unfold handleSummarize
    rw [if_neg hl]
    exact ⟨rfl, rfl, rfl, rfl⟩
  · intro m res
    unfold handleSummarize
    repeat' split
    all_goals rfl

/-- Claim C4, witness: a state holding one segment and a prior summary; a
failed summarization keeps both and surfaces the message. -/
theorem c4_witness :
    (handleSummarize (Except.error ())
      (run [Ev.fileSelect 1 0, Ev.transcriptionDone (Except.ok (some "a")) 1,
        Ev.tapSummarize (Except.ok (some "old"))])).segments
      = (run [Ev.fileSelect 1 0, Ev.transcriptionDone (Except.ok (some "a")) 1,
        Ev.tapSummarize (Except.ok (some "old"))]).segments ∧
    (handleSummarize (Except.error ())
      (run [Ev.fileSelect 1 0, Ev.transcriptionDone (Except.ok (some "a")) 1,
        Ev.tapSummarize (Except.ok (some "old"))])).summary
      = (run [Ev.fileSelect 1 0, Ev.transcriptionDone (Except.ok (some "a")) 1,
        Ev.tapSummarize (Except.ok (some "old"))]).summary :=
  ⟨(c4_theorem.2.2.1 (run [Ev.fileSelect 1 0, Ev.transcriptionDone (Except.ok (some "a")) 1,
      Ev.tapSummarize (Except.ok (some "old"))]) (by decide)).1,
   (c4_theorem.2.2.1 (run [Ev.fileSelect 1 0, Ev.transcriptionDone (Except.ok (some "a")) 1,
      Ev.tapSummarize (Except.ok (some "old"))]) (by decide)).2.1⟩

/-! ## Claim C5 -/

/-- Claim C5 (confirmed): while a transcription is outstanding (the state
entered by Stop-and-finalize or a file submission), its completion with
text `txt` appends exactly one new segment with that text at the end of the
store and returns the phase to Idle; its failure surfaces the error
message, appends nothing, leaves the store untouched and also returns the
phase to Idle (never Error), so the user may retry. -/
theorem c5_theorem :
    ∀ m : Model, m.pendingTranscription.isSome = true →
      ∀ (res : Except Unit (Option String)) (t : Nat),
        (∀ txt : String, transcribeAudioToUrdu res = Except.ok txt →
          (stepEv m (Ev.transcriptionDone res t)).segments
            = m.segments ++ [{ id := toString t, text := txt, timestamp := t }] ∧
          (stepEv m (Ev.transcriptionDone res t)).summary = m.summary ∧
          (stepEv m (Ev.transcriptionDone res t)).appState = AppState.IDLE) ∧
        (∀ e : Unit, transcribeAudioToUrdu res = Except.error e →
          (stepEv m (Ev.transcriptionDone res t)).segments = m.segments ∧
          (stepEv m (Ev.transcriptionDone res t)).summary = m.summary ∧
          (stepEv m (Ev.transcriptionDone res t)).errorMsg
            = some "Transcription failed. Please try again or check file format." ∧
          (stepEv m (Ev.transcriptionDone res t)).appState = AppState.IDLE) := by
  intro m hp res t
  constructor
  · intro txt htxt
    simp only [stepEv, hp, if_true]
    unfold finishTranscription
    rw [htxt]
    exact ⟨rfl, rfl, rfl⟩
  · intro e he
    simp only [stepEv, hp, if_true]
    unfold finishTranscription
    rw [he]
    exact ⟨rfl, rfl, rfl, rfl⟩

/-- Claim C5, witness: a submitted file whose transcription succeeds with
"a" appends exactly that segment; and a state whose transcription fails
keeps the store and returns to Idle. -/
theorem c5_witness :
    (stepEv (run [Ev.fileSelect 1 0]) (Ev.transcriptionDone (Except.ok (some "a")) 9)).segments
      = (run [Ev.fileSelect 1 0]).segments
        ++ [{ id := toString 9, text := "a".trim, timestamp := 9 }] ∧
    (stepEv (run [Ev.fileSelect 1 0]) (Ev.transcriptionDone (Except.error ()) 9)).segments
      = (run [Ev.fileSelect 1 0]).segments ∧
    (stepEv (run [Ev.fileSelect 1 0]) (Ev.transcriptionDone (Except.error ()) 9)).appState
      = AppState.IDLE :=
  ⟨((c5_theorem (run [Ev.fileSelect 1 0]) (by decide) (Except.ok (some "a")) 9).1 "a".trim
      rfl).1,
   ((c5_theorem (run [Ev.fileSelect 1 0]) (by decide) (Except.error ()) 9).2 () rfl).1,
   ((c5_theorem (run [Ev.fileSelect 1 0]) (by decide) (Except.error ()) 9).2 () rfl).2.2.2⟩

/-! ## Claim C6 -/

/-- Claim C6 (confirmed): from any reachable Recording or Paused state,
Cancel and Restart never invoke transcription (the invocation count is
unchanged and no new transcription becomes outstanding) and never produce a
TranscriptSegment (the store is unchanged); both discard the chunk buffer
and return the phase to Idle, and Restart additionally schedules the
delayed re-run of Start. -/
theorem c6_theorem :
    ∀ m : Model, Reachable m →
      (m.appState = AppState.RECORDING ∨ m.appState = AppState.PAUSED) →
      (stepEv m Ev.tapCancel).transcribeCount = m.transcribeCount ∧
      (stepEv m Ev.tapCancel).segments = m.segments ∧
      (stepEv m Ev.tapCancel).pendingTranscription = m.pendingTranscription ∧
      (stepEv m Ev.tapCancel).audioChunks = [] ∧
      (stepEv m Ev.tapCancel).appState = AppState.IDLE ∧
      (stepEv m Ev.tapRestart).transcribeCount = m.transcribeCount ∧
      (stepEv m Ev.tapRestart).segments = m.segments ∧
      (stepEv m Ev.tapRestart).pendingTranscription = m.pendingTranscription ∧
      (stepEv m Ev.tapRestart).audioChunks = [] ∧
      (stepEv m Ev.tapRestart).appState = AppState.IDLE ∧
      (stepEv m Ev.tapRestart).pendingInit = true := by
  intro m hreach hph
  obtain ⟨h1, h2, h3, h4⟩ := reachable_inv m hreach
  obtain ⟨r, hr⟩ : ∃ r, m.recorder = some r := by
    rcases hph with hph | hph
    · obtain ⟨r, hr, _⟩ := h2 hph
      exact ⟨r, hr⟩
    · obtain ⟨r, hr, _⟩ := h3 hph
      exact ⟨r, hr⟩
  simp only [stepEv, if_pos hph]
  unfold cancelRecording restartRecording
  rw [hr]
  exact ⟨rfl, rfl, rfl, rfl, rfl, rfl, rfl, rfl, rfl, rfl, rfl⟩

/-- Claim C6, witness: cancelling or restarting a live recording that
buffered one chunk. -/
theorem c6_witness :
    (stepEv (run [Ev.tapStartOk, Ev.dataAvailable ⟨1, 0⟩]) Ev.tapCancel).transcribeCount
      = (run [Ev.tapStartOk, Ev.dataAvailable ⟨1, 0⟩]).transcribeCount ∧
    (stepEv (run [Ev.tapStartOk, Ev.dataAvailable ⟨1, 0⟩]) Ev.tapCancel).segments
      = (run [Ev.tapStartOk, Ev.dataAvailable ⟨1, 0⟩]).segments ∧
    (stepEv (run [Ev.tapStartOk, Ev.dataAvailable ⟨1, 0⟩]) Ev.tapCancel).appState
      = AppState.IDLE ∧
    (stepEv (run [Ev.tapStartOk, Ev.dataAvailable ⟨1, 0⟩]) Ev.tapRestart).appState
      = AppState.IDLE ∧
    (stepEv (run [Ev.tapStartOk, Ev.dataAvailable ⟨1, 0⟩]) Ev.tapRestart).pendingInit
      = true := by
  have h := c6_theorem (run [Ev.tapStartOk, Ev.dataAvailable ⟨1, 0⟩])
    ⟨[Ev.tapStartOk, Ev.dataAvailable ⟨1, 0⟩], rfl⟩ (Or.inl (by decide))
  exact ⟨h.1, h.2.1, h.2.2.2.2.1, h.2.2.2.2.2.2.2.2.2.1, h.2.2.2.2.2.2.2.2.2.2⟩

/-! ## Claim C7 -/

/-- Claim C7 (confirmed): from Idle, a file strictly larger than
500 * 1024 * 1024 bytes is rejected — the entire state is unchanged except
for the user-visible error message (in particular the phase stays Idle, the
store and summary are untouched, no transcription is invoked); a file at or
below the limit is submitted directly to transcription with the phase set
to Processing. -/
theorem c7_theorem :
    ∀ (m : Model) (sz p : Nat), m.appState = AppState.IDLE →
      (500 * 1024 * 1024 < sz →
        stepEv m (Ev.fileSelect sz p)
          = { m with errorMsg := some "File too large. Max 500MB allowed." }) ∧
      (sz ≤ 500 * 1024 * 1024 →
        (stepEv m (Ev.fileSelect sz p)).appState = AppState.PROCESSING ∧
        (stepEv m (Ev.fileSelect sz p)).segments = m.segments ∧
        (stepEv m (Ev.fileSelect sz p)).summary = m.summary ∧
        (stepEv m (Ev.fileSelect sz p)).transcribeCount = m.transcribeCount + 1 ∧
        (stepEv m (Ev.fileSelect sz p)).pendingTranscription
          = some [{ size := sz, payload := p }]) := by
  intro m sz p hm
  have hg : m.appState = AppState.IDLE ∨ m.appState = AppState.ERROR := Or.inl hm
  constructor
  · intro hsz
    simp only [stepEv, if_pos hg]
    unfold handleFileUpload
    rw [if_pos hsz]
  · intro hsz
    simp only [stepEv, if_pos hg]
    unfold handleFileUpload
    rw [if_neg (by omega : ¬500 * 1024 * 1024 < sz)]
    exact ⟨rfl, rfl, rfl, rfl, rfl⟩

/-- Claim C7, witness: a 600 MiB upload from the initial state is rejected
with only the error message set; a small upload enters Processing. -/
theorem c7_witness :
    stepEv (run []) (Ev.fileSelect (600 * 1024 * 1024) 0)
      = { run [] with errorMsg := some "File too large. Max 500MB allowed." } ∧
    (stepEv (run []) (Ev.fileSelect 10 0)).appState = AppState.PROCESSING :=
  ⟨(c7_theorem (run []) (600 * 1024 * 1024) 0 (by decide)).1 (by norm_num),
   ((c7_theorem (run []) 10 0 (by decide)).2 (by norm_num)).1⟩

/-! ## Claim C8 -/

/-- Helper: when the stored ids are pairwise distinct, deleting by id
removes at most one segment. -/
theorem filter_ne_length_nodup (l : List TranscriptSegment) (id : String)
    (h : (l.map TranscriptSegment.id).Nodup) :
    l.length ≤ (l.filter (fun s => s.id != id)).length + 1 := by
  induction l with
  | nil => simp
  | cons a l ih =>
    simp only [List.map_cons, List.nodup_cons] at h
    obtain ⟨ha, hl⟩ := h
    by_cases hid : a.id = id
    · have hkeep : l.filter (fun s => s.id != id) = l := by
        rw [List.filter_eq_self]
        intro s hs
        simp only [bne_iff_ne, ne_eq]
        intro hcontra
        apply ha
        have hmem : s.id ∈ l.map TranscriptSegment.id := List.mem_map_of_mem _ hs
        rw [hcontra, ← hid] at hmem
        exact hmem
      simp [List.filter_cons, hid, hkeep]
    · have hne : (a.id != id) = true := by simp [bne_iff_ne, hid]
      simp only [List.filter_cons, hne, if_true, List.length_cons]
      have := ih hl
      omega

/-- Claim C8, counterexample: two file transcriptions completing at the
same clock value 5 yield two stored segments that BOTH carry id "5" — the
appended id (Date.now().toString(), with no disambiguator) is not unique —
and deleteById "5" then removes BOTH segments, not at most one. -/
theorem c8_counterexample :
    Reachable (run [Ev.fileSelect 1 0, Ev.transcriptionDone (Except.ok (some "a")) 5,
      Ev.fileSelect 1 0, Ev.transcriptionDone (Except.ok (some "b")) 5]) ∧
    (run [Ev.fileSelect 1 0, Ev.transcriptionDone (Except.ok (some "a")) 5,
      Ev.fileSelect 1 0, Ev.transcriptionDone (Except.ok (some "b")) 5]).segments.length = 2 ∧
    (run [Ev.fileSelect 1 0, Ev.transcriptionDone (Except.ok (some "a")) 5,
      Ev.fileSelect 1 0, Ev.transcriptionDone (Except.ok (some "b")) 5]).segments.map
      (fun s => s.id) = ["5", "5"] ∧
    (handleDeleteSegment "5"
      (run [Ev.fileSelect 1 0, Ev.transcriptionDone (Except.ok (some "a")) 5,
        Ev.fileSelect 1 0, Ev.transcriptionDone (Except.ok (some "b")) 5])).segments = [] :=
  ⟨reachable_run _, by decide, by decide, by decide⟩

/-- Claim C8 (amended): deleteById(id) removes every segment whose id
equals the given id — hence at most one whenever the stored ids are
pairwise distinct; on an absent id it is a no-op, not an error, leaving the
store unchanged; every appended segment carries the creation clock value as
its id, which distinguishes segments only when no two segments are created
at the same clock value (the generator adds no disambiguator). -/
theorem c8_theorem :
    ∀ (m : Model) (id : String),
      ((∀ s ∈ m.segments, s.id ≠ id) → handleDeleteSegment id m = m) ∧
      (handleDeleteSegment id m).segments = m.segments.filter (fun s => s.id != id) ∧
      ((m.segments.map TranscriptSegment.id).Nodup →
        m.segments.length ≤ (handleDeleteSegment id m).segments.length + 1) ∧
      (∀ (res : Except Unit (Option String)) (txt : String) (t : Nat),
        transcribeAudioToUrdu res = Except.ok txt →
        (finishTranscription res t m).segments
          = m.segments ++ [{ id := toString t, text := txt, timestamp := t }]) := by
  intro m id
  refine ⟨?_, rfl, ?_, ?_⟩
  · intro hnone
    unfold handleDeleteSegment
    have hkeep : m.segments.filter (fun s => s.id != id) = m.segments := by
      rw [List.filter_eq_self]
      intro s hs
      simpa using hnone s hs
    rw [hkeep]
  · intro hnd
    exact filter_ne_length_nodup m.segments id hnd
  · intro res txt t htxt
    unfold finishTranscription
    rw [htxt]

/-- Claim C8, witness: deleting an absent id from a one-segment store is a
no-op, and with distinct ids at most one segment is removed. -/
theorem c8_witness :
    handleDeleteSegment "7"
      (run [Ev.fileSelect 1 0, Ev.transcriptionDone (Except.ok (some "a")) 5])
      = run [Ev.fileSelect 1 0, Ev.transcriptionDone (Except.ok (some "a")) 5] ∧
    (run [Ev.fileSelect 1 0, Ev.transcriptionDone
        (Except.ok (some "a")) 5]).segments.length
      ≤ (handleDeleteSegment "5"
          (run [Ev.fileSelect 1 0, Ev.transcriptionDone
            (Except.ok (some "a")) 5])).segments.length + 1 :=
  ⟨(c8_theorem (run [Ev.fileSelect 1 0, Ev.transcriptionDone (Except.ok (some "a")) 5])
      "7").1 (by decide),
   (c8_theorem (run [Ev.fileSelect 1 0, Ev.transcriptionDone (Except.ok (some "a")) 5])
      "5").2.2.1 (by decide)⟩

/-! ## Claim C9 -/

/-- Helper: the concrete string "hi" survives trimming (the well-founded
trim recursion is evaluated by hand, one unfolding per end). -/
theorem takeWhileAux_hi :
    Substring.takeWhileAux "hi" "hi".endPos Char.isWhitespace { byteIdx := 0 }
      = { byteIdx := 0 } := by
  rw [Substring.takeWhileAux]
  norm_num
  intro _ h
  exact absurd h (by decide)

theorem takeRightWhileAux_hi :
    Substring.takeRightWhileAux "hi" { byteIdx := 0 } Char.isWhitespace "hi".endPos
      = "hi".endPos := by
  rw [Substring.takeRightWhileAux]
  norm_num
  intro _ h
  exact absurd h (by decide)

theorem trim_hi : "hi".trim = "hi" := by
  show ("hi".toSubstring.trim).toString = "hi"
  rw [String.toSubstring]
  rw [Substring.trim]
  rw [takeWhileAux_hi, takeRightWhileAux_hi]
  decide

/-- Claim C9 (confirmed): submitting a question appends exactly one user
message (with the typed text), clears the input and marks an answer
outstanding; the completion appends exactly one assistant message — the
real answer on success, the fixed placeholder on failure, never a hard
error — and clears the outstanding flag; a submission while an answer is
outstanding is ignored (the state is unchanged), so at most one question is
outstanding at a time, and each answer follows its own user message. -/
theorem c9_theorem :
    ∀ (m : Model) (t : Nat) (res : Except Unit (Option String)) (u : Nat),
      (m.isChatLoading = true → stepEv m (Ev.chatSubmit t) = m) ∧
      (m.isChatLoading = false → ¬m.chatInput.trim = "" →
        (stepEv m (Ev.chatSubmit t)).chatMessages
          = m.chatMessages
            ++ [{ id := toString t, role := .user, text := m.chatInput, timestamp := t }] ∧
        (stepEv m (Ev.chatSubmit t)).isChatLoading = true ∧
        (stepEv m (Ev.chatSubmit t)).chatInput = "") ∧
      (m.isChatLoading = true →
        (stepEv m (Ev.chatDone res u)).chatMessages
          = m.chatMessages
            ++ [{ id := toString (u + 1), role := .ai, text := chatAnswerText res,
                  timestamp := u }] ∧
        (stepEv m (Ev.chatDone res u)).isChatLoading = false) ∧
      (m.isChatLoading = false → stepEv m (Ev.chatDone res u) = m) ∧
      (∀ a : String, chatWithTranscript res = Except.ok a → chatAnswerText res = a) ∧
      (∀ e : Unit, chatWithTranscript res = Except.error e →
        chatAnswerText res = "Sorry, I couldn\x27t process that question right now.") := by
  intro m t res u
  refine ⟨?_, ?_, ?_, ?_, ?_, ?_⟩
  · intro hload
    simp only [stepEv]
    unfold handleSendMessage
    rw [if_pos (Or.inr hload)]
  · intro hload htrim
    simp only [stepEv]
    unfold handleSendMessage
    rw [if_neg (by simp [htrim, hload])]
    exact ⟨rfl, rfl, rfl⟩
  · intro hload
    simp only [stepEv, hload, if_true]
    unfold finishChat
    exact ⟨rfl, rfl⟩
  · intro hload
    simp [stepEv, hload]
  · intro a ha
    unfold chatAnswerText
    rw [ha]
  · intro e he
    unfold chatAnswerText
    rw [he]

/-- Claim C9, witness: with input "hi" and no outstanding answer, submission
appends the user message; with an answer outstanding, a failing completion
appends the placeholder assistant message, and a second submission is
ignored. -/
theorem c9_witness :
    (stepEv { initModel with chatInput := "hi" } (Ev.chatSubmit 3)).chatMessages
      = ({ initModel with chatInput := "hi" } : Model).chatMessages
        ++ [{ id := toString 3, role := .user, text := "hi", timestamp := 3 }] ∧
    (stepEv { initModel with isChatLoading := true } (Ev.chatDone (Except.error ()) 4)).chatMessages
      = ({ initModel with isChatLoading := true } : Model).chatMessages
        ++ [{ id := toString (4 + 1), role := .ai,
              text := chatAnswerText (Except.error ()), timestamp := 4 }] ∧
    stepEv { initModel with isChatLoading := true } (Ev.chatSubmit 3)
      = { initModel with isChatLoading := true } ∧
    chatAnswerText (Except.error ())
      = "Sorry, I couldn\x27t process that question right now." :=
  ⟨((c9_theorem { initModel with chatInput := "hi" } 3 (Except.error ()) 4).2.1 rfl
      (by rw [show ({ initModel with chatInput := "hi" } : Model).chatInput = "hi" from rfl,
            trim_hi]; decide)).1,
   ((c9_theorem { initModel with isChatLoading := true } 3 (Except.error ()) 4).2.2.1 rfl).1,
   (c9_theorem { initModel with isChatLoading := true } 3 (Except.error ()) 4).1 rfl,
   (c9_theorem { initModel with isChatLoading := true } 3 (Except.error ()) 4).2.2.2.2.2 () rfl⟩

/-! ## Claim C10 -/

/-- Claim C10 (confirmed): in every reachable state the chunk buffer
contains only chunks of positive size (zero-size deliveries are discarded
before buffering), and consequently every assembled audio object is free of
empty chunks. -/
theorem c10_theorem :
    ∀ m : Model, Reachable m →
      (∀ c ∈ m.audioChunks, 0 < c.size) ∧
      (∀ b ∈ m.assembled, ∀ c ∈ b, 0 < c.size) := by
  intro m hreach
  obtain ⟨h1, h2, h3, h4⟩ := reachable_inv m hreach
  refine ⟨?_, h4⟩
  intro c hc
  rw [h1] at hc
  have := List.of_mem_filter hc
  simpa [chunkPos] using this

/-- Claim C10, witness: a recording that received one positive-size and one
zero-size chunk, then stopped and assembled. -/
theorem c10_witness :
    (∀ c ∈ (run [Ev.tapStartOk, Ev.dataAvailable ⟨2, 0⟩, Ev.dataAvailable ⟨0, 1⟩,
      Ev.tapStop, Ev.stopSignal]).audioChunks, 0 < c.size) ∧
    (∀ b ∈ (run [Ev.tapStartOk, Ev.dataAvailable ⟨2, 0⟩, Ev.dataAvailable ⟨0, 1⟩,
      Ev.tapStop, Ev.stopSignal]).assembled, ∀ c ∈ b, 0 < c.size) :=
  c10_theorem (run [Ev.tapStartOk, Ev.dataAvailable ⟨2, 0⟩, Ev.dataAvailable ⟨0, 1⟩,
    Ev.tapStop, Ev.stopSignal])
    ⟨[Ev.tapStartOk, Ev.dataAvailable ⟨2, 0⟩, Ev.dataAvailable ⟨0, 1⟩,
      Ev.tapStop, Ev.stopSignal], rfl⟩

end Talk2Write
